import Mathlib

/-!
# Raw mouse input demo (`Class 2/testlagi.cpp`)

A shallow embedding of the message loop of `main` and of the window procedure
`EventHandler`, followed by theorems about them.

* The global `input.mouse` record becomes the `input` field of `State`.
* `std::cout` becomes the `out` field of `State`: the text written so far.
* The thread message queue is an input: for every iteration of the outer `while`
  loop, the list of messages that `PeekMessage` hands out in that iteration's inner
  loop before it reports an empty queue.
* The `static` buffer `raw` of `EventHandler` becomes the `raw` field of `State`: it
  keeps its content from one call to the next.
* `Sleep` and `ClearConsole` touch neither the record nor the text written to the
  stream; they are left out of the state.
-/

namespace Testlagi

/-! ## Platform constants -/

/-- Modelled from the spec: the message identifier `WM_DESTROY` of `windows.h`, which is
not under `src/`. -/
def WM_DESTROY : Nat := 0x0002

/-- Modelled from the spec: the message identifier `WM_QUIT` of `windows.h`, which is not
under `src/`. -/
def WM_QUIT : Nat := 0x0012

/-- Modelled from the spec: the message identifier `WM_INPUT` of `windows.h`, which is not
under `src/`. -/
def WM_INPUT : Nat := 0x00FF

/-- Modelled from the spec: the device type tag `RIM_TYPEMOUSE` of `windows.h`, which is
not under `src/`. -/
def RIM_TYPEMOUSE : Nat := 0

/-- Modelled from the spec: the button flag `RI_MOUSE_WHEEL` of `windows.h`, which is not
under `src/`. -/
def RI_MOUSE_WHEEL : Nat := 0x0400

/-- Modelled from the spec: the notch constant `WHEEL_DELTA` of `windows.h`, which is not
under `src/`. -/
def WHEEL_DELTA : Int := 120

/-! ## Data model -/

/-- The fields of `RAWMOUSE` that the program reads. `usButtonFlags` and `usButtonData`
are `USHORT`, `lLastX` and `lLastY` are `LONG`. -/
structure RAWMOUSE where
  usButtonFlags : Nat := 0
  usButtonData : Nat := 0
  lLastX : Int := 0
  lLastY : Int := 0
  deriving DecidableEq, Repr

/-- The fields of `RAWINPUT` that the program reads: `header.dwType` and `data.mouse`. -/
structure RAWINPUT where
  dwType : Nat := 0
  mouse : RAWMOUSE := {}
  deriving DecidableEq, Repr

/-- A queued message: its identifier `message`, the raw input data `raw` that stand
behind its `lparam`, and whether `GetRawInputData` copies them when it is called with
`size = sizeof(RAWINPUT)`. The call fails when the data are larger than `size` or when
`lparam` is no valid handle; the data of a mouse always fit. -/
structure MSG where
  message : Nat
  raw : RAWINPUT
  copied : Bool
  deriving DecidableEq, Repr

/-- The record `input.mouse`: three `int` fields, all initialised to `0`. -/
structure Mouse where
  x : Int := 0
  y : Int := 0
  wheel : Int := 0
  deriving DecidableEq, Repr

/-- The state that `main` and `EventHandler` share. -/
structure State where
  /-- the global `input.mouse` -/
  input : Mouse := {}
  /-- the local `quit` of `main` -/
  quit : Bool := false
  /-- the text written to `std::cout` so far -/
  out : String := ""
  /-- whether `PostQuitMessage` has been called and its `WM_QUIT` not yet retrieved -/
  quitPosted : Bool := false
  /-- the first element of the `static` buffer `raw` of `EventHandler`, zero at the start
  as all static storage is -/
  raw : RAWINPUT := {}
  deriving DecidableEq, Repr

/-! ## `EventHandler` -/

/-- The value of `*(short *)&u` for a `USHORT` with bit pattern `u`: the low fifteen bits
count positively, bit fifteen counts `-2^15`. -/
def shortOfBits (u : Nat) : Int :=
  ((u % 32768 : Nat) : Int) - 32768 * ((u / 32768 % 2 : Nat) : Int)

/-- The body of `if (raw->header.dwType == RIM_TYPEMOUSE)`. The division is the `int`
division of C++, which truncates. -/
def mouseInput (m : Mouse) (raw : RAWINPUT) : Mouse :=
  if raw.dwType = RIM_TYPEMOUSE then
    let m1 := { m with x := raw.mouse.lLastX }
    let m2 := { m1 with y := raw.mouse.lLastY }
    if raw.mouse.usButtonFlags &&& RI_MOUSE_WHEEL ≠ 0 then
      { m2 with wheel := Int.tdiv (shortOfBits raw.mouse.usButtonData) WHEEL_DELTA }
    else m2
  else m

/-- The call `GetRawInputData(..., raw, &size, ...)` on the buffer `buf`. When the call
succeeds the data are in the buffer; when it fails the buffer keeps what it held. The
source does not look at the value the call returns. -/
def GetRawInputData (buf : RAWINPUT) (data : RAWINPUT) (copied : Bool) : RAWINPUT :=
  if copied then data else buf

/-- The window procedure. `WM_DESTROY` calls `PostQuitMessage`; `WM_INPUT` calls
`GetRawInputData` on the static buffer and then decodes whatever the buffer holds; every
other message goes to `DefWindowProc` and leaves the state alone. -/
def EventHandler (s : State) (event : Nat) (data : RAWINPUT) (copied : Bool) : State :=
  if event = WM_DESTROY then { s with quitPosted := true }
  else if event = WM_INPUT then
    let s1 := { s with raw := GetRawInputData s.raw data copied }
    { s1 with input := mouseInput s1.input s1.raw }
  else s

/-! ## `main` -/

/-- The inner loop `while (PeekMessage(...))` over the messages that are queued. A
`WM_QUIT` message sets `quit` and leaves the loop at once; any other message is
dispatched to `EventHandler`. When the queue is empty, `PeekMessage` hands out the
`WM_QUIT` of an earlier `PostQuitMessage`, if there is one. -/
def drain : State → List MSG → State
  | s, [] => if s.quitPosted then { s with quit := true, quitPosted := false } else s
  | s, m :: rest =>
    if m.message = WM_QUIT then { s with quit := true }
    else drain (EventHandler s m.message m.raw m.copied) rest

/-- The text that `std::cout << n` writes for an `int`. -/
def coutInt (n : Int) : String :=
  if n < 0 then "-" ++ Nat.repr n.natAbs else Nat.repr n.natAbs

/-- The three output statements after the inner loop. -/
def render (s : State) : State :=
  let s1 := { s with out := s.out ++ "Mouse input: (" ++ coutInt s.input.x }
  let s2 := { s1 with out := s1.out ++ ", " ++ coutInt s1.input.y }
  { s2 with out := s2.out ++ ", " ++ coutInt s2.input.wheel ++ ")\n" }

/-- The three assignments that end the loop body. -/
def reset (s : State) : State :=
  let s1 := { s with input := { s.input with x := 0 } }
  let s2 := { s1 with input := { s1.input with y := 0 } }
  { s2 with input := { s2.input with wheel := 0 } }

/-- One pass through the body of `while (!quit)`. -/
def body (s : State) (queue : List MSG) : State :=
  reset (render (drain s queue))

/-- The loop `while (!quit)`, run for as many iterations as there are queues given. -/
def loop : State → List (List MSG) → State
  | s, [] => s
  | s, q :: qs => if s.quit then s else loop (body s q) qs

/-- What the platform answers during one run of the program. -/
structure Env where
  /-- whether `AllocConsole()` returns nonzero -/
  allocConsole : Bool
  /-- whether `freopen_s` on `stdout` succeeds -/
  freopenOut : Bool
  /-- whether `freopen_s` on `stderr` succeeds -/
  freopenErr : Bool
  /-- whether `RegisterClass` returns nonzero -/
  registerClass : Bool
  /-- whether `CreateWindow` returns a window -/
  createWindow : Bool
  /-- whether `RegisterRawInputDevices` returns `TRUE` -/
  registerRawInputDevices : Bool
  /-- the messages handed out in each iteration of the outer loop -/
  queues : List (List MSG)
  deriving DecidableEq, Repr

/-- How a run ends. -/
inductive Exit where
  /-- the function `main` returns this value -/
  | returned (code : Int)
  /-- the queues given are used up and the loop has not met a termination event -/
  | running
  /-- the run reaches `fclose` with a stream that `freopen_s` did not open, and `main`
  does not return -/
  | fault
  deriving DecidableEq, Repr

/-- What is observed of one run: how it ends, and the text handed to `std::cout`. -/
structure Outcome where
  exit : Exit
  out : String
  deriving DecidableEq, Repr

/-- The function `main`. The source does not look at the results of `freopen_s` and of
`RegisterRawInputDevices`, so no branch before the loop reads them. After the loop the
two streams go to `fclose`, `console_output` first; a stream that `freopen_s` failed to
open is no stream, and the run does not get to `return 0`. -/
def main (env : Env) : Outcome :=
  if env.allocConsole then
    if !env.registerClass then { exit := .returned (-1), out := "" }
    else if !env.createWindow then { exit := .returned (-1), out := "" }
    else
      let s := loop {} env.queues
      if s.quit then
        if !env.freopenOut then { exit := .fault, out := s.out }
        else if !env.freopenErr then { exit := .fault, out := s.out }
        else { exit := .returned 0, out := s.out }
      else { exit := .running, out := s.out }
  else { exit := .returned (-1), out := "" }

/-! ## Vocabulary of the statements -/

/-- A raw-input message whose data carry the mouse type tag and reach the buffer. -/
def isMouseRaw (m : MSG) : Bool :=
  decide (m.message = WM_INPUT) && m.copied && decide (m.raw.dwType = RIM_TYPEMOUSE)

/-- Every raw-input message of the queue has its data copied into the buffer. -/
def allCopied (q : List MSG) : Prop :=
  ∀ m ∈ q, m.message = WM_INPUT → m.copied = true

/-- A raw-input message from a mouse with the wheel flag set. -/
def isWheelRaw (m : MSG) : Bool :=
  isMouseRaw m && decide (m.raw.mouse.usButtonFlags &&& RI_MOUSE_WHEEL ≠ 0)

/-- The window procedure applied to each message of a list in turn. -/
def dispatchAll (s : State) (q : List MSG) : State :=
  q.foldl (fun t m => EventHandler t m.message m.raw m.copied) s

/-- The line that shows a record, without its line break. -/
def line (m : Mouse) : String :=
  "Mouse input: (" ++ coutInt m.x ++ ", " ++ coutInt m.y ++ ", " ++ coutInt m.wheel ++ ")"

/-- The `wheel` value that a wheel message stores. -/
def notches (m : MSG) : Int :=
  Int.tdiv (shortOfBits m.raw.mouse.usButtonData) WHEEL_DELTA

/-- The record after a list of messages whose raw-input data all reach the buffer has
gone through the window procedure, written out field by field: `x` and `y` come from
the last raw mouse message, `wheel` from the last one with the wheel flag; a field with
no such message keeps its value. -/
def lastWins (i : Mouse) (q : List MSG) : Mouse :=
  { x := match (q.filter isMouseRaw).getLast? with
         | some m => m.raw.mouse.lLastX
         | none => i.x,
    y := match (q.filter isMouseRaw).getLast? with
         | some m => m.raw.mouse.lLastY
         | none => i.y,
    wheel := match (q.filter isWheelRaw).getLast? with
             | some m => notches m
             | none => i.wheel }

/-- The number that a list of decimal digits writes. -/
def decValue (ds : List Char) : Nat :=
  ds.foldl (fun a c => 10 * a + (c.toNat - 48)) 0

/-- The text `t` is the decimal writing of `n`: a `-` when `n` is negative, then the
digits of the absolute value of `n`, with no leading zero. -/
def IsDecimal (n : Int) (t : String) : Prop :=
  ∃ ds : List Char,
    t = (if n < 0 then "-" else "") ++ String.mk ds
      ∧ ds ≠ []
      ∧ (∀ c ∈ ds, c.isDigit = true)
      ∧ decValue ds = n.natAbs
      ∧ (ds.head? = some '0' → ds = ['0'])

/-! ## Messages used in examples -/

/-- A `WM_INPUT` message from a mouse. -/
def mouseMsg (flags data : Nat) (dx dy : Int) : MSG :=
  { message := WM_INPUT,
    raw := { dwType := RIM_TYPEMOUSE,
             mouse := { usButtonFlags := flags, usButtonData := data,
                        lLastX := dx, lLastY := dy } },
    copied := true }

/-- A `WM_QUIT` message. -/
def quitMsg : MSG :=
  { message := WM_QUIT, raw := {}, copied := false }

/-- A `WM_INPUT` message of a device with type tag `RIM_TYPEHID` (`2`) whose data are
larger than `sizeof(RAWINPUT)`, so that `GetRawInputData` fails. -/
def hidMsg : MSG :=
  { message := WM_INPUT, raw := { dwType := 2 }, copied := false }

/-- A platform on which every startup call succeeds. -/
def okEnv (queues : List (List MSG)) : Env :=
  { allocConsole := true, freopenOut := true, freopenErr := true, registerClass := true,
    createWindow := true, registerRawInputDevices := true, queues := queues }

/-! ## Lemmas about single steps -/

@[simp] theorem reset_input (s : State) : (reset s).input = { x := 0, y := 0, wheel := 0 } := rfl

@[simp] theorem reset_out (s : State) : (reset s).out = s.out := rfl

@[simp] theorem reset_quit (s : State) : (reset s).quit = s.quit := rfl

@[simp] theorem render_input (s : State) : (render s).input = s.input := rfl

@[simp] theorem render_quit (s : State) : (render s).quit = s.quit := rfl

@[simp] theorem body_input (s : State) (q : List MSG) :
    (body s q).input = { x := 0, y := 0, wheel := 0 } := rfl

@[simp] theorem body_quit (s : State) (q : List MSG) : (body s q).quit = (drain s q).quit := rfl

@[simp] theorem EventHandler_out (s : State) (event : Nat) (data : RAWINPUT) (copied : Bool) :
    (EventHandler s event data copied).out = s.out := by
  unfold EventHandler
  split_ifs <;> rfl

@[simp] theorem EventHandler_quit (s : State) (event : Nat) (data : RAWINPUT) (copied : Bool) :
    (EventHandler s event data copied).quit = s.quit := by
  unfold EventHandler
  split_ifs <;> rfl

theorem shortOfBits_eq (u : Nat) (hu : u < 65536) :
    shortOfBits u = if u < 32768 then (u : Int) else (u : Int) - 65536 := by
  unfold shortOfBits
  split_ifs with h <;> omega

theorem tdiv_eq_sign_mul (a : Int) (b : Nat) :
    Int.tdiv a (b : Int) = Int.sign a * ((a.natAbs / b : Nat) : Int) := by
  rcases Int.natAbs_eq a with h | h
  · have h0 : 0 ≤ a := by omega
    rcases eq_or_lt_of_le h0 with hz | hp
    · subst hz; simp
    · rw [Int.sign_eq_one_of_pos hp, one_mul, Int.ofNat_tdiv, ← h]
  · have hn : a ≤ 0 := by omega
    rcases eq_or_lt_of_le hn with hz | hneg
    · subst hz; simp
    · rw [Int.sign_eq_neg_one_of_neg hneg, Int.ofNat_tdiv]
      conv_lhs => rw [h]
      simp

theorem mouseInput_of_not_mouse (i : Mouse) (raw : RAWINPUT) (h : raw.dwType ≠ RIM_TYPEMOUSE) :
    mouseInput i raw = i := by
  simp [mouseInput, h]

theorem mouseInput_xy (i : Mouse) (raw : RAWINPUT) (h : raw.dwType = RIM_TYPEMOUSE) :
    (mouseInput i raw).x = raw.mouse.lLastX ∧ (mouseInput i raw).y = raw.mouse.lLastY := by
  unfold mouseInput
  rw [if_pos h]
  split_ifs <;> exact ⟨rfl, rfl⟩

/-- The state of the loop is untouched by further queues once `quit` is set. -/
theorem loop_of_quit (s : State) (qs : List (List MSG)) (h : s.quit = true) : loop s qs = s := by
  cases qs with
  | nil => rfl
  | cons q qs => simp [loop, h]

/-- Running the loop on two runs of queues, one after the other. -/
theorem loop_append (s : State) (pre suf : List (List MSG)) :
    loop s (pre ++ suf) = loop (loop s pre) suf := by
  induction pre generalizing s with
  | nil => rfl
  | cons q pre ih =>
    by_cases h : s.quit = true
    · rw [loop_of_quit s _ h, loop_of_quit s _ h, loop_of_quit s _ h]
    · simp [loop, h, ih]

theorem loop_snoc (s : State) (pre : List (List MSG)) (q : List MSG)
    (h : (loop s pre).quit = false) : loop s (pre ++ [q]) = body (loop s pre) q := by
  rw [loop_append]
  simp [loop, h]

/-- The record is zero whenever the loop is about to start an iteration. -/
theorem loop_input_zero (s : State) (qs : List (List MSG))
    (h : s.input = { x := 0, y := 0, wheel := 0 }) :
    (loop s qs).input = { x := 0, y := 0, wheel := 0 } := by
  induction qs generalizing s with
  | nil => exact h
  | cons q qs ih =>
    unfold loop
    split_ifs
    · exact h
    · exact ih _ (body_input s q)

/-! ## Lemmas about the inner loop -/

theorem EventHandler_input (s : State) (event : Nat) (data : RAWINPUT) (copied : Bool) :
    (EventHandler s event data copied).input
      = if event = WM_INPUT then mouseInput s.input (GetRawInputData s.raw data copied)
        else s.input := by
  have hne : WM_DESTROY ≠ WM_INPUT := by decide
  unfold EventHandler
  by_cases h1 : event = WM_DESTROY
  · subst h1
    rw [if_pos rfl, if_neg hne]
  · rw [if_neg h1]
    by_cases h2 : event = WM_INPUT
    · rw [if_pos h2, if_pos h2]
    · rw [if_neg h2, if_neg h2]

theorem EventHandler_raw (s : State) (event : Nat) (data : RAWINPUT) (copied : Bool) :
    (EventHandler s event data copied).raw
      = if event = WM_INPUT then GetRawInputData s.raw data copied else s.raw := by
  have hne : WM_DESTROY ≠ WM_INPUT := by decide
  unfold EventHandler
  by_cases h1 : event = WM_DESTROY
  · subst h1
    rw [if_pos rfl, if_neg hne]
  · rw [if_neg h1]
    by_cases h2 : event = WM_INPUT
    · rw [if_pos h2, if_pos h2]
    · rw [if_neg h2, if_neg h2]

/-- A message that is no raw-input message, or whose data reach the buffer and carry
another type tag than the mouse's, leaves the record alone. -/
theorem EventHandler_frame_of_copied (s : State) (m : MSG)
    (hc : m.message = WM_INPUT → m.copied = true) (h : isMouseRaw m = false) :
    (EventHandler s m.message m.raw m.copied).input = s.input := by
  rw [EventHandler_input]
  split_ifs with h1
  · have hcp := hc h1
    have h2 : m.raw.dwType ≠ RIM_TYPEMOUSE := by
      intro h2
      simp [isMouseRaw, h1, h2, hcp] at h
    rw [hcp]
    exact mouseInput_of_not_mouse _ _ h2
  · rfl

@[simp] theorem drain_out (s : State) (q : List MSG) : (drain s q).out = s.out := by
  induction q generalizing s with
  | nil => unfold drain; split_ifs <;> rfl
  | cons m rest ih =>
    unfold drain
    split_ifs
    · rfl
    · rw [ih, EventHandler_out]

/-- While no `WM_QUIT` message is met, the inner loop leaves the record as the window
procedure leaves it, message after message. -/
theorem drain_input (s : State) (q : List MSG) (h : ∀ m ∈ q, m.message ≠ WM_QUIT) :
    (drain s q).input = (dispatchAll s q).input := by
  induction q generalizing s with
  | nil => unfold drain dispatchAll; split_ifs <;> rfl
  | cons m rest ih =>
    have hm : m.message ≠ WM_QUIT := h m (List.mem_cons_self _ _)
    have hr : ∀ m' ∈ rest, m'.message ≠ WM_QUIT :=
      fun m' hm' => h m' (List.mem_cons_of_mem _ hm')
    unfold drain
    rw [if_neg hm, ih _ hr]
    rfl

theorem dispatchAll_snoc (s : State) (q : List MSG) (m : MSG) :
    dispatchAll s (q ++ [m]) = EventHandler (dispatchAll s q) m.message m.raw m.copied := by
  simp [dispatchAll, List.foldl_append]

theorem render_out (s : State) : (render s).out = s.out ++ (line s.input ++ "\n") := by
  have h : (")\n" : String) = ")" ++ "\n" := by decide
  simp only [render, line, String.append_assoc, h]

theorem body_out (s : State) (q : List MSG) :
    (body s q).out = s.out ++ (line (drain s q).input ++ "\n") := by
  simp only [body, reset_out, render_out, drain_out]

/-- Messages that are not raw mouse input leave the record alone in the inner loop, as
long as the data of every raw-input message reach the buffer; this holds also when a
`WM_QUIT` message cuts the loop short. -/
theorem drain_input_of_no_mouse (s : State) (q : List MSG) (hc : allCopied q)
    (h : ∀ m ∈ q, isMouseRaw m = false) : (drain s q).input = s.input := by
  induction q generalizing s with
  | nil => unfold drain; split_ifs <;> rfl
  | cons m rest ih =>
    unfold drain
    split_ifs
    · rfl
    · rw [ih _ (fun m' hm' => hc m' (List.mem_cons_of_mem _ hm'))
          (fun m' hm' => h m' (List.mem_cons_of_mem _ hm')),
        EventHandler_frame_of_copied _ _ (hc m (List.mem_cons_self _ _))
          (h m (List.mem_cons_self _ _))]

theorem lastWins_nil (i : Mouse) : lastWins i [] = i := rfl

/-- After the last raw mouse message of a list, `x` and `y` are its deltas, and the
buffer holds either these deltas or data with another type tag; raw-input messages
whose data do not reach the buffer cannot change that. -/
theorem dispatchAll_last_mouse (s : State) (last : MSG) (q : List MSG)
    (hlast : (q.filter isMouseRaw).getLast? = some last) :
    (dispatchAll s q).input.x = last.raw.mouse.lLastX
      ∧ (dispatchAll s q).input.y = last.raw.mouse.lLastY
      ∧ ((dispatchAll s q).raw.dwType = RIM_TYPEMOUSE →
          (dispatchAll s q).raw.mouse.lLastX = last.raw.mouse.lLastX
            ∧ (dispatchAll s q).raw.mouse.lLastY = last.raw.mouse.lLastY) := by
  induction q using List.reverseRecOn with
  | nil => simp at hlast
  | append_singleton q a ih =>
    rw [dispatchAll_snoc, EventHandler_input, EventHandler_raw]
    by_cases hm : isMouseRaw a = true
    · have hla : a = last := by
        simpa [List.filter_append, hm, List.getLast?_concat] using hlast
      subst hla
      have hm2 := hm
      simp only [isMouseRaw, Bool.and_eq_true, decide_eq_true_eq] at hm2
      obtain ⟨⟨h1, h2⟩, h3⟩ := hm2
      rw [if_pos h1, if_pos h1, h2]
      have hxy := mouseInput_xy (dispatchAll s q).input a.raw h3
      exact ⟨hxy.1, hxy.2, fun _ => ⟨rfl, rfl⟩⟩
    · have hm' : isMouseRaw a = false := by simpa using hm
      have hq : (q.filter isMouseRaw).getLast? = some last := by
        simpa [List.filter_append, hm'] using hlast
      obtain ⟨hx, hy, hb⟩ := ih hq
      by_cases h1 : a.message = WM_INPUT
      · rw [if_pos h1, if_pos h1]
        cases hcp : a.copied with
        | true =>
          have h3 : a.raw.dwType ≠ RIM_TYPEMOUSE := by
            intro h3
            simp [isMouseRaw, h1, hcp, h3] at hm'
          simp only [GetRawInputData, if_true]
          rw [mouseInput_of_not_mouse _ _ h3]
          exact ⟨hx, hy, fun h => absurd h h3⟩
        | false =>
          simp only [GetRawInputData, Bool.false_eq_true, if_false]
          refine ⟨?_, ?_, hb⟩
          · by_cases h3 : (dispatchAll s q).raw.dwType = RIM_TYPEMOUSE
            · rw [(mouseInput_xy _ _ h3).1]; exact (hb h3).1
            · rw [mouseInput_of_not_mouse _ _ h3]; exact hx
          · by_cases h3 : (dispatchAll s q).raw.dwType = RIM_TYPEMOUSE
            · rw [(mouseInput_xy _ _ h3).2]; exact (hb h3).2
            · rw [mouseInput_of_not_mouse _ _ h3]; exact hy
      · rw [if_neg h1, if_neg h1]
        exact ⟨hx, hy, hb⟩

/-- The inner loop up to a `WM_QUIT` message: the messages before it are dispatched, the
messages after it are not looked at. -/
theorem drain_until_quit (s : State) (pre rest : List MSG) (m : MSG)
    (hpre : ∀ m' ∈ pre, m'.message ≠ WM_QUIT) (hm : m.message = WM_QUIT) :
    drain s (pre ++ m :: rest) = { (dispatchAll s pre) with quit := true } := by
  induction pre generalizing s with
  | nil => simp [drain, dispatchAll, hm]
  | cons a pre ih =>
    have ha : a.message ≠ WM_QUIT := hpre a (List.mem_cons_self _ _)
    rw [List.cons_append, drain, if_neg ha,
      ih _ (fun m' hm' => hpre m' (List.mem_cons_of_mem _ hm'))]
    rfl

/-! ## Lemmas about the decimal output -/

theorem digitChar_spec (d : Nat) (h : d < 10) :
    (Nat.digitChar d).isDigit = true ∧ (Nat.digitChar d).toNat - 48 = d := by
  interval_cases d <;> exact ⟨by decide, by decide⟩

theorem toDigitsCore_acc (f n : Nat) (ds : List Char) :
    Nat.toDigitsCore 10 f n ds = Nat.toDigitsCore 10 f n [] ++ ds := by
  induction f generalizing n ds with
  | zero => rfl
  | succ f ih =>
    simp only [Nat.toDigitsCore]
    split_ifs
    · rfl
    · rw [ih, ih (n / 10) [_]]
      simp

theorem decValue_snoc (ds : List Char) (c : Char) :
    decValue (ds ++ [c]) = 10 * decValue ds + (c.toNat - 48) := by
  simp [decValue, List.foldl_append]

theorem toDigitsCore_spec (f n : Nat) (h : n < f) :
    Nat.toDigitsCore 10 f n [] ≠ []
      ∧ (∀ c ∈ Nat.toDigitsCore 10 f n [], c.isDigit = true)
      ∧ decValue (Nat.toDigitsCore 10 f n []) = n
      ∧ ((Nat.toDigitsCore 10 f n []).head? = some '0' → Nat.toDigitsCore 10 f n [] = ['0']) := by
  induction f generalizing n with
  | zero => omega
  | succ f ih =>
    have hd := digitChar_spec (n % 10) (Nat.mod_lt _ (by decide))
    simp only [Nat.toDigitsCore]
    split_ifs with h0
    · refine ⟨by simp, ?_, ?_, ?_⟩
      · intro c hc
        rw [List.mem_singleton] at hc
        rw [hc]; exact hd.1
      · have : n % 10 = n := by omega
        simp only [decValue, List.foldl]
        omega
      · intro hh
        simp only [List.head?_cons, Option.some.injEq] at hh
        rw [hh]
    · have hlt : n / 10 < f := by omega
      obtain ⟨h1, h2, h3, h4⟩ := ih (n / 10) hlt
      rw [toDigitsCore_acc]
      refine ⟨by simp, ?_, ?_, ?_⟩
      · intro c hc
        rw [List.mem_append, List.mem_singleton] at hc
        rcases hc with hc | hc
        · exact h2 c hc
        · rw [hc]; exact hd.1
      · rw [decValue_snoc, h3]
        omega
      · intro hh
        exfalso
        rw [List.head?_append_of_ne_nil _ h1] at hh
        have := h4 hh
        rw [this] at h3
        simp [decValue] at h3
        omega

theorem coutInt_isDecimal (n : Int) : IsDecimal n (coutInt n) := by
  obtain ⟨h1, h2, h3, h4⟩ := toDigitsCore_spec (n.natAbs + 1) n.natAbs (Nat.lt_succ_self _)
  refine ⟨Nat.toDigits 10 n.natAbs, ?_, h1, h2, h3, h4⟩
  unfold coutInt
  split_ifs
  · rfl
  · rw [String.empty_append]; rfl
/-! ## The window procedure -/

/-- C7 at the failing input: a first iteration dispatches a mouse message with deltas
`(5, -3)` and wheel amount `240`, and ends with the record reset to zeros. A raw-input
message of a device with type tag `2` follows, whose data do not fit the buffer: the
call of `GetRawInputData` fails, the buffer still holds the mouse data, and the record
becomes `(5, -3, 2)`. -/
theorem stale_buffer_overwrites_record :
    (loop {} [[mouseMsg 0x0400 240 5 (-3)]]).input = { x := 0, y := 0, wheel := 0 }
      ∧ hidMsg.message = WM_INPUT
      ∧ hidMsg.raw.dwType ≠ RIM_TYPEMOUSE
      ∧ (EventHandler (loop {} [[mouseMsg 0x0400 240 5 (-3)]])
            hidMsg.message hidMsg.raw hidMsg.copied).input
          = { x := 5, y := -3, wheel := 2 } := by
  decide

/-- C3: for a raw mouse message with the wheel flag set and a 16-bit wheel amount `u`,
`wheel` becomes `sv / 120` rounded toward zero, where `sv` is `u` read as a 16-bit two's
complement number: `u` below `32768`, `u - 65536` from there on. So `120` gives `1`,
`65416` gives `-1`, and the bit pattern of `k * 120` gives `k` for `-273 ≤ k ≤ 273`. -/
theorem wheel_signed_notches (s : State) (raw : RAWINPUT)
    (hty : raw.dwType = RIM_TYPEMOUSE)
    (hfl : raw.mouse.usButtonFlags &&& RI_MOUSE_WHEEL ≠ 0)
    (hu : raw.mouse.usButtonData < 65536) :
    (∀ sv : Int,
        sv = (if raw.mouse.usButtonData < 32768 then (raw.mouse.usButtonData : Int)
              else (raw.mouse.usButtonData : Int) - 65536) →
        (EventHandler s WM_INPUT raw true).input.wheel
          = Int.sign sv * ((sv.natAbs / 120 : Nat) : Int))
      ∧ (raw.mouse.usButtonData = 120 → (EventHandler s WM_INPUT raw true).input.wheel = 1)
      ∧ (raw.mouse.usButtonData = 65416 →
          (EventHandler s WM_INPUT raw true).input.wheel = -1)
      ∧ (∀ k : Int, -273 ≤ k → k ≤ 273 →
          (raw.mouse.usButtonData : Int) = (k * 120) % 65536 →
          (EventHandler s WM_INPUT raw true).input.wheel = k) := by
  have hw : (EventHandler s WM_INPUT raw true).input.wheel
      = Int.tdiv (shortOfBits raw.mouse.usButtonData) 120 := by
    rw [EventHandler_input, if_pos rfl]
    simp [GetRawInputData, mouseInput, hty, hfl, WHEEL_DELTA]
  have hs := shortOfBits_eq _ hu
  have hgen : ∀ k : Int, -273 ≤ k → k ≤ 273 →
      (raw.mouse.usButtonData : Int) = (k * 120) % 65536 →
      (EventHandler s WM_INPUT raw true).input.wheel = k := by
    intro k h1 h2 hk
    have hsk : shortOfBits raw.mouse.usButtonData = k * 120 := by
      rw [hs]
      split_ifs with h <;> omega
    rw [hw, hsk]
    exact Int.mul_tdiv_cancel k (by decide)
  refine ⟨?_, ?_, ?_, hgen⟩
  · intro sv hsv
    rw [hw, hs, ← hsv]
    exact tdiv_eq_sign_mul sv 120
  · intro h
    exact hgen 1 (by decide) (by decide) (by rw [h]; decide)
  · intro h
    exact hgen (-1) (by decide) (by decide) (by rw [h]; decide)

/-- One notch backward: the wheel amount `0xFF88` with the wheel flag set gives `-1`. -/
theorem wheel_signed_notches_witness :
    (EventHandler {} WM_INPUT (mouseMsg 0x0400 65416 0 0).raw true).input.wheel = -1 :=
  (wheel_signed_notches {} (mouseMsg 0x0400 65416 0 0).raw (by decide) (by decide)
    (by decide)).2.2.1 (by decide)

/-! ## The loop -/

/-- C5: the record is `(0, 0, 0)` when the program starts, every pass through the loop
body leaves it `(0, 0, 0)` whatever messages were queued, and so it is `(0, 0, 0)` at the
start of every inner loop, after any number of iterations. -/
theorem record_zero_at_drain_start :
    ({} : State).input = { x := 0, y := 0, wheel := 0 }
      ∧ (∀ (s : State) (q : List MSG), (body s q).input = { x := 0, y := 0, wheel := 0 })
      ∧ (∀ pre : List (List MSG), (loop {} pre).input = { x := 0, y := 0, wheel := 0 }) :=
  ⟨rfl, fun s q => body_input s q, fun pre => loop_input_zero {} pre rfl⟩

/-- C6 at the failing input: the first queue holds a mouse message with deltas `(5, -3)`
and wheel amount `240`; the second queue holds one raw-input message of a device with
type tag `2` whose data do not fit the buffer, so no raw mouse message and no `WM_QUIT`.
The second iteration writes `(5, -3, 2)` again. -/
theorem idle_iteration_shows_stale_motion :
    (∀ m ∈ [hidMsg], m.raw.dwType ≠ RIM_TYPEMOUSE ∧ m.message ≠ WM_QUIT)
      ∧ (loop {} [[mouseMsg 0x0400 240 5 (-3)]]).out = "Mouse input: (5, -3, 2)\n"
      ∧ (loop {} [[mouseMsg 0x0400 240 5 (-3)], [hidMsg]]).out
          = "Mouse input: (5, -3, 2)\nMouse input: (5, -3, 2)\n" := by
  decide

/-- An iteration whose queue holds no raw mouse input writes the line
`Mouse input: (0, 0, 0)`, as long as the data of every raw-input message of that queue
reach the buffer. -/
theorem idle_iteration_of_copied (pre : List (List MSG)) (q : List MSG)
    (hrun : (loop {} pre).quit = false) (hc : allCopied q)
    (hq : ∀ m ∈ q, isMouseRaw m = false) :
    (loop {} (pre ++ [q])).out = (loop {} pre).out ++ "Mouse input: (0, 0, 0)\n" := by
  rw [loop_snoc _ _ _ hrun, body_out, drain_input_of_no_mouse _ _ hc hq,
    loop_input_zero {} pre rfl]
  rfl

/-- C4: in an iteration whose queue holds no `WM_QUIT` message and at least one raw mouse
message, the `x` and `y` of the line written are the `lLastX` and `lLastY` of the last
raw mouse message of the queue; those of earlier messages are overwritten, not summed.
(When every message of the queue is a raw mouse message, `last` is the last message.) -/
theorem last_motion_wins (s : State) (q : List MSG) (last : MSG)
    (hq : ∀ m ∈ q, m.message ≠ WM_QUIT)
    (hlast : (q.filter isMouseRaw).getLast? = some last) :
    (drain s q).input.x = last.raw.mouse.lLastX
      ∧ (drain s q).input.y = last.raw.mouse.lLastY
      ∧ (body s q).out
          = s.out ++ ("Mouse input: (" ++ coutInt last.raw.mouse.lLastX ++ ", "
              ++ coutInt last.raw.mouse.lLastY ++ ", "
              ++ coutInt (drain s q).input.wheel ++ ")" ++ "\n") := by
  have hx : (drain s q).input.x = last.raw.mouse.lLastX := by
    rw [drain_input s q hq]
    exact (dispatchAll_last_mouse s last q hlast).1
  have hy : (drain s q).input.y = last.raw.mouse.lLastY := by
    rw [drain_input s q hq]
    exact (dispatchAll_last_mouse s last q hlast).2.1
  refine ⟨hx, hy, ?_⟩
  rw [body_out, line, hx, hy]

/-- Three motions in one queue: the line shows the third, not the sum `(7, 7)`. -/
theorem last_motion_wins_witness :
    (∀ m ∈ [mouseMsg 0 0 1 2, mouseMsg 0 0 2 4, mouseMsg 0 0 4 1], m.message ≠ WM_QUIT)
      ∧ ([mouseMsg 0 0 1 2, mouseMsg 0 0 2 4, mouseMsg 0 0 4 1].filter isMouseRaw).getLast?
          = some (mouseMsg 0 0 4 1)
      ∧ (body {} [mouseMsg 0 0 1 2, mouseMsg 0 0 2 4, mouseMsg 0 0 4 1]).out
          = "Mouse input: (4, 1, 0)\n" :=
  ⟨by decide, by decide,
   (last_motion_wins {} [mouseMsg 0 0 1 2, mouseMsg 0 0 2 4, mouseMsg 0 0 4 1]
      (mouseMsg 0 0 4 1) (by decide) (by decide)).2.2.trans (by decide)⟩

/-- C9: the output statements append the text `Mouse input: (`, the decimal writing of
`x`, `, `, that of `y`, `, `, that of `wheel`, `)` and a line break; every pass through
the loop body appends one such line, for the record as the inner loop left it; and the
text written for an `int` is its decimal writing, with `-` in front of a negative value
and no leading zero. -/
theorem render_writes_line (s : State) :
    (render s).out
        = s.out ++ ("Mouse input: (" ++ coutInt s.input.x ++ ", " ++ coutInt s.input.y
            ++ ", " ++ coutInt s.input.wheel ++ ")" ++ "\n")
      ∧ (∀ q : List MSG, (body s q).out = s.out ++ (line (drain s q).input ++ "\n"))
      ∧ (∀ n : Int, IsDecimal n (coutInt n)) :=
  ⟨render_out s, fun q => body_out s q, coutInt_isDecimal⟩

/-! ## Termination -/

/-- C1, as the program behaves: when the inner loop of an iteration meets the
termination event, the messages queued behind it are not dispatched, the iteration goes
on to write its line, for the record as it stood at the termination event, and the loop
ends with that iteration: later queues change nothing. With a motion `(5, -3)` and a
`WM_QUIT` queued, the line `Mouse input: (5, -3, 0)` is written once. -/
theorem quit_renders_once_then_exits (s : State) (q : List MSG) (qs : List (List MSG))
    (hrun : s.quit = false) (hquit : (drain s q).quit = true) :
    loop s (q :: qs) = body s q
      ∧ (body s q).out = s.out ++ (line (drain s q).input ++ "\n")
      ∧ (∀ (pre rest : List MSG) (m : MSG), q = pre ++ m :: rest →
          (∀ m' ∈ pre, m'.message ≠ WM_QUIT) → m.message = WM_QUIT →
          (drain s q).input = (dispatchAll s pre).input)
      ∧ (loop {} [[mouseMsg 0 0 5 (-3), quitMsg]]).out = "Mouse input: (5, -3, 0)\n" := by
  refine ⟨?_, body_out s q, ?_, by decide⟩
  · rw [loop, hrun]
    exact loop_of_quit _ _ (by rw [body_quit, hquit])
  · intro pre rest m hqeq hpre hm
    rw [hqeq, drain_until_quit s pre rest m hpre hm]

/-- The queue of the scenario, with a second queue behind it that is never looked at. -/
theorem quit_renders_once_then_exits_witness :
    ({} : State).quit = false
      ∧ (drain {} [mouseMsg 0 0 5 (-3), quitMsg]).quit = true
      ∧ loop {} [[mouseMsg 0 0 5 (-3), quitMsg], [mouseMsg 0 0 1 1]]
          = body {} [mouseMsg 0 0 5 (-3), quitMsg] :=
  ⟨rfl, by decide,
   (quit_renders_once_then_exits {} [mouseMsg 0 0 5 (-3), quitMsg] [[mouseMsg 0 0 1 1]]
      rfl (by decide)).1⟩

/-- C1, as stated, fails: with a motion `(5, -3)` and a `WM_QUIT` queued before the first
inner loop, the inner loop updates the record to `x = 5`, `y = -3` and meets the
termination event, and the line for that record is written all the same. -/
theorem quit_then_no_render_counterexample :
    (drain {} [mouseMsg 0 0 5 (-3), quitMsg]).quit = true
      ∧ (drain {} [mouseMsg 0 0 5 (-3), quitMsg]).input = { x := 5, y := -3, wheel := 0 }
      ∧ (main (okEnv [[mouseMsg 0 0 5 (-3), quitMsg]])).out = "Mouse input: (5, -3, 0)\n"
      ∧ (main (okEnv [[mouseMsg 0 0 5 (-3), quitMsg]])).out ≠ "" := by
  decide

/-! ## Startup and exit status -/

/-- C2 at the failing input: `RegisterRawInputDevices` fails, every other startup call
succeeds, the first queue is empty and the second holds a `WM_QUIT`. The loop is entered,
two lines are written and `main` returns `0`. -/
theorem registration_failure_enters_loop :
    main { allocConsole := true, freopenOut := true, freopenErr := true,
           registerClass := true, createWindow := true, registerRawInputDevices := false,
           queues := [[], [quitMsg]] }
      = { exit := .returned 0,
          out := "Mouse input: (0, 0, 0)\nMouse input: (0, 0, 0)\n" } := by
  decide

/-- C8 at the failing input: `AllocConsole` succeeds, both calls of `freopen_s` fail,
every later startup call succeeds, the first queue is empty and the second holds a
`WM_QUIT`. The run does not end at once with `-1`: the loop is entered, two lines are
handed to `std::cout`, and after the loop the run stops in `fclose`. -/
theorem redirection_failure_enters_loop :
    main { allocConsole := true, freopenOut := false, freopenErr := false,
           registerClass := true, createWindow := true, registerRawInputDevices := true,
           queues := [[], [quitMsg]] }
      = { exit := .fault,
          out := "Mouse input: (0, 0, 0)\nMouse input: (0, 0, 0)\n" } := by
  decide

/-- The startup failures that `main` guards: it returns `-1` at once, with nothing
written, when `AllocConsole` fails, when `RegisterClass` fails or when `CreateWindow`
gives no window. When these three and the two redirections succeed and the loop is
stopped by a termination event, `main` returns `0`, and `0` is returned in no other
way. -/
theorem guarded_startup_failures (env : Env) :
    (env.allocConsole = false → main env = { exit := .returned (-1), out := "" })
      ∧ (env.registerClass = false → main env = { exit := .returned (-1), out := "" })
      ∧ (env.createWindow = false → main env = { exit := .returned (-1), out := "" })
      ∧ (env.allocConsole = true → env.freopenOut = true → env.freopenErr = true →
          env.registerClass = true → env.createWindow = true →
          (loop {} env.queues).quit = true → (main env).exit = .returned 0)
      ∧ ((main env).exit = .returned 0 →
          env.allocConsole = true ∧ env.freopenOut = true ∧ env.freopenErr = true
            ∧ env.registerClass = true ∧ env.createWindow = true
            ∧ (loop {} env.queues).quit = true) := by
  unfold main
  refine ⟨?_, ?_, ?_, ?_, ?_⟩
  · intro h
    simp [h]
  · intro h
    cases env.allocConsole <;> simp [h]
  · intro h
    cases env.allocConsole <;> cases env.registerClass <;> simp [h]
  · intro h1 h2 h3 h4 h5 h6
    simp [h1, h2, h3, h4, h5, h6]
  · cases env.allocConsole <;> cases env.registerClass <;> cases env.createWindow <;>
      cases env.freopenOut <;> cases env.freopenErr <;>
      cases hq : (loop {} env.queues).quit <;> simp [hq]

end Testlagi
